import Mathlib

/-!
Shallow embedding of the youtube-tools-mcp core (src/index.ts and
src/database.ts), with JavaScript strings modelled as lists of characters
and SQL timestamps as abstract `Nat` clock readings.
-/

namespace YoutubeMcp

/-- The character class `[^&\n?#]` of the video-id regexes in
`extractVideoId` (src/index.ts line 226): a captured id stops at any of
these delimiters. -/
def delims : List Char := ['&', '\n', '?', '#']

/-- The four marker alternatives of the first regex of `extractVideoId`
(src/index.ts line 226), in alternation order. -/
def markers : List (List Char) :=
  ["youtube.com/watch?v=".data, "youtu.be/".data,
   "youtube.com/embed/".data, "youtube.com/v/".data]

/-- Greedy capture group `([^&\n?#]+)`: the longest run of non-delimiter
characters, failing when that run is empty. -/
def captureAt (l : List Char) : Option (List Char) :=
  let cap := l.takeWhile (fun c => !(decide (c ∈ delims)))
  if cap = [] then none else some cap

/-- The first regex's alternation tried at one position: a marker must be
a literal prefix here, followed by a nonempty capture. -/
def pattern1At (l : List Char) : Option (List Char) :=
  markers.findSome? (fun m =>
    if m.isPrefixOf l then captureAt (l.drop m.length) else none)

/-- Leftmost match of the first regex: positions scanned left to right. -/
def pattern1Search : List Char → Option (List Char)
  | [] => none
  | c :: rest =>
    match pattern1At (c :: rest) with
    | some cap => some cap
    | none => pattern1Search rest

/-- The literal `v=` followed by the capture group, tried at one
position. -/
def vEqCapture : List Char → Option (List Char)
  | 'v' :: '=' :: rest => captureAt rest
  | _ => none

/-- Greedy `.*v=([^&\n?#]+)`: `.` never matches a newline, and greediness
means the rightmost feasible `v=` on the line wins. -/
def dotStarVEq : List Char → Option (List Char)
  | [] => vEqCapture []
  | c :: rest =>
    match (if c = '\n' then none else dotStarVEq rest) with
    | some cap => some cap
    | none => vEqCapture (c :: rest)

/-- The literal head of the second regex of `extractVideoId`
(src/index.ts line 227). -/
def watchMarker : List Char := "youtube.com/watch?".data

/-- The second regex tried at one position. -/
def pattern2At (l : List Char) : Option (List Char) :=
  if watchMarker.isPrefixOf l then dotStarVEq (l.drop watchMarker.length)
  else none

/-- Leftmost match of the second regex. -/
def pattern2Search : List Char → Option (List Char)
  | [] => none
  | c :: rest =>
    match pattern2At (c :: rest) with
    | some cap => some cap
    | none => pattern2Search rest

/-- Shallow embedding of `extractVideoId` (src/index.ts lines 218-239):
the 11-character heuristic, then the two URL regexes in order, then the
input unchanged. -/
def extractVideoId (input : List Char) : List Char :=
  if input.length = 11 ∧ '/' ∉ input ∧ '=' ∉ input then input
  else
    match pattern1Search input with
    | some cap => cap
    | none =>
      match pattern2Search input with
      | some cap => cap
      | none => input

/-- `n.toString()` for a JavaScript non-negative integer. -/
def numStr (n : Nat) : List Char := (Nat.repr n).data

/-- `.padStart(2, "0")`. -/
def padStart2 (l : List Char) : List Char :=
  List.replicate (2 - l.length) '0' ++ l

/-- Shallow embedding of `formatTimestamp` (src/index.ts lines 592-605). -/
def formatTimestamp (offsetMs : Nat) : List Char :=
  let totalSeconds := offsetMs / 1000
  let hours := totalSeconds / 3600
  let minutes := (totalSeconds % 3600) / 60
  let seconds := totalSeconds % 60
  if hours > 0 then
    numStr hours ++ [':'] ++ padStart2 (numStr minutes) ++ [':']
      ++ padStart2 (numStr seconds)
  else
    numStr minutes ++ [':'] ++ padStart2 (numStr seconds)

/-- Rendering described by spec §4.2, written from the spec's words:
whole seconds by truncating division, hours, minutes 0-59, seconds 0-59,
`H:MM:SS` when hours are positive, else `M:SS`, with the trailing unit
groups zero-padded to two digits. Stated separately from
`formatTimestamp` so the two can be compared. -/
def specClockRender (offsetMs : Nat) : List Char :=
  let ts := offsetMs / 1000
  let h := ts / 3600
  let m := ts / 60 % 60
  let s := ts % 60
  if 0 < h then
    numStr h ++ [':'] ++ padStart2 (numStr m) ++ [':'] ++ padStart2 (numStr s)
  else
    numStr m ++ [':'] ++ padStart2 (numStr s)

/-- One caption segment as mapped from the provider payload
(src/index.ts lines 286-290): `text`, `offset` in milliseconds,
`duration`, all taken verbatim. -/
structure TranscriptEntry where
  text : List Char
  offset : Nat
  duration : Nat
deriving DecidableEq

/-- One rendered transcript line (the map body at src/index.ts 316-319). -/
def formatEntry (e : TranscriptEntry) : List Char :=
  "[".data ++ formatTimestamp e.offset ++ "] ".data ++ e.text

/-- `transcript.map(...).join("\n")` (src/index.ts 315-320). -/
def formattedTranscript (ts : List TranscriptEntry) : List Char :=
  ['\n'].intercalate (ts.map formatEntry)

/-- `transcript[transcript.length - 1]?.offset || 0` (src/index.ts 326);
on a non-negative integer, `x || 0` is `x` unless `x` is the falsy `0`,
so this is the last segment's offset, or `0` when there is none. -/
def lastOffset (ts : List TranscriptEntry) : Nat :=
  match ts.getLast? with
  | some e => e.offset
  | none => 0

/-- The duration shown in the transcript summary (src/index.ts 325-327). -/
def transcriptDuration (ts : List TranscriptEntry) : List Char :=
  formatTimestamp (lastOffset ts)

/-- Spec-side alternative duration metric that C7 contrasts with the
code: the maximum of `offset + duration` over all segments. -/
def specMaxEndOffset (ts : List TranscriptEntry) : Nat :=
  ts.foldr (fun e acc => max (e.offset + e.duration) acc) 0

/-- Error codes of `McpError` as raised by the handlers. -/
inductive McpErr where
  | invalidParams
  | internalError
deriving DecidableEq

/-- The two success payload shapes of `getYouTubeTranscript`
(src/index.ts 293-341). -/
inductive TranscriptResult where
  | noTranscript (videoId : List Char)
  | transcript (videoId : List Char) (totalSegments : Nat)
      (duration : List Char) (rendered : List Char)
deriving DecidableEq

/-- JavaScript falsiness of an optional string argument: absent or
empty. -/
def falsyStr : Option (List Char) → Bool
  | none => true
  | some s => s.isEmpty

/-- Shallow embedding of the handler `getYouTubeTranscript`
(src/index.ts 241-341) on the success path of the provider call: inputs
are the raw `videoId` argument, the configured RapidAPI key, and the
`content` field of the provider response (`none` when the field is
absent). Transport failures of the provider call itself are outside the
model. -/
def getYouTubeTranscript (rawVideoId rapidApiKey : Option (List Char))
    (content : Option (List TranscriptEntry)) :
    Except McpErr TranscriptResult :=
  if falsyStr rawVideoId then .error .invalidParams
  else
    let videoId := extractVideoId (rawVideoId.getD [])
    if falsyStr rapidApiKey then .error .internalError
    else
      let transcript := (match content with
        | some entries => entries
        | none => [])
      if transcript.length = 0 then .ok (.noTranscript videoId)
      else
        .ok (.transcript videoId transcript.length
          (transcriptDuration transcript) (formattedTranscript transcript))

/-- One row of the `video_summaries` table (src/database.ts 26-33). -/
structure SummaryRow where
  video_id : List Char
  summary : List Char
  created_at : Nat
  updated_at : Nat
deriving DecidableEq

/-- SQLite semantics of `INSERT OR REPLACE INTO video_summaries
(video_id, summary, updated_at) VALUES (?, ?, CURRENT_TIMESTAMP)`
(src/database.ts 59-65): a row conflicting on the primary key is deleted
and a fresh row inserted; the omitted `created_at` column takes its
declared default `CURRENT_TIMESTAMP`. -/
def insertOrReplace (st : List SummaryRow) (now : Nat)
    (videoId summary : List Char) : List SummaryRow :=
  st.filter (fun r => !(r.video_id == videoId)) ++ [⟨videoId, summary, now, now⟩]

/-- Failures raised by `DatabaseService` methods themselves. -/
inductive DbErr where
  | required
deriving DecidableEq

/-- Shallow embedding of `DatabaseService.storeVideoSummary`
(src/database.ts 52-72); `!videoId || !summary` rejects empty strings. -/
def dbStoreVideoSummary (st : List SummaryRow) (now : Nat)
    (videoId summary : List Char) : Except DbErr (List SummaryRow) :=
  if videoId.isEmpty || summary.isEmpty then .error .required
  else .ok (insertOrReplace st now videoId summary)

/-- Shallow embedding of `DatabaseService.fetchExistingVideoSummary`
(src/database.ts 79-101): `SELECT summary FROM video_summaries WHERE
video_id = ?`, `null` when no row matches. -/
def dbFetchExistingVideoSummary (st : List SummaryRow)
    (videoId : List Char) : Except DbErr (Option (List Char)) :=
  if videoId.isEmpty then .error .required
  else .ok ((st.find? (fun r => r.video_id == videoId)).map (fun r => r.summary))

/-- Shallow embedding of the `storeVideoSummary` tool handler
(src/index.ts 554-590): parameter checks, then the database upsert with
the raw `videoId` argument passed through unchanged; the returned pair
carries the database state after the call. -/
def mcpStoreVideoSummary (st : List SummaryRow) (now : Nat)
    (videoId summary : Option (List Char)) :
    List SummaryRow × Except McpErr (List Char) :=
  if falsyStr videoId then (st, .error .invalidParams)
  else if falsyStr summary then (st, .error .invalidParams)
  else
    match dbStoreVideoSummary st now (videoId.getD []) (summary.getD []) with
    | .ok st' =>
      (st', .ok ("Successfully stored summary for video ID: ".data ++ videoId.getD []))
    | .error _ => (st, .error .internalError)

/-- Shallow embedding of the `fetchExistingVideoSummary` tool handler
(src/index.ts 512-552); the raw `videoId` argument is passed through
unchanged. -/
def mcpFetchExistingVideoSummary (st : List SummaryRow)
    (videoId : Option (List Char)) : Except McpErr (List Char) :=
  if falsyStr videoId then .error .invalidParams
  else
    match dbFetchExistingVideoSummary st (videoId.getD []) with
    | .ok none => .ok ("No summary found for video ID: ".data ++ videoId.getD [])
    | .ok (some s) =>
      .ok ("Summary for video ID: ".data ++ videoId.getD [] ++ "\n\n".data ++ s)
    | .error _ => .error .internalError

end YoutubeMcp

namespace YoutubeMcp

theorem digitChar_mem_table (m : Nat) :
    Nat.digitChar m ∈ "0123456789abcdef*".data := by
  match m with
  | 0 => decide
  | 1 => decide
  | 2 => decide
  | 3 => decide
  | 4 => decide
  | 5 => decide
  | 6 => decide
  | 7 => decide
  | 8 => decide
  | 9 => decide
  | 10 => decide
  | 11 => decide
  | 12 => decide
  | 13 => decide
  | 14 => decide
  | 15 => decide
  | n + 16 =>
    have h : Nat.digitChar (n + 16) = '*' := rfl
    rw [h]
    decide

theorem toDigitsCore_mem (b : Nat) :
    ∀ (f n : Nat) (ds : List Char) (c : Char),
      c ∈ Nat.toDigitsCore b f n ds → c ∈ ds ∨ ∃ m, c = Nat.digitChar m := by
  intro f
  induction f with
  | zero => intro n ds c hc; exact Or.inl hc
  | succ f ih =>
    intro n ds c hc
    simp only [Nat.toDigitsCore] at hc
    by_cases hnb : n / b = 0
    · rw [if_pos hnb] at hc
      rcases List.mem_cons.1 hc with hc | hc
      · exact Or.inr ⟨n % b, hc⟩
      · exact Or.inl hc
    · rw [if_neg hnb] at hc
      rcases ih (n / b) (Nat.digitChar (n % b) :: ds) c hc with hc | hc
      · rcases List.mem_cons.1 hc with hc | hc
        · exact Or.inr ⟨n % b, hc⟩
        · exact Or.inl hc
      · exact Or.inr hc

theorem not_mem_numStr {c : Char}
    (hc : c ∉ "0123456789abcdef*".data) (n : Nat) : c ∉ numStr n := by
  intro h
  have h' : c ∈ Nat.toDigitsCore 10 (n + 1) n [] := h
  rcases toDigitsCore_mem 10 (n + 1) n [] c h' with h'' | ⟨m, rfl⟩
  · exact absurd h'' (List.not_mem_nil c)
  · exact hc (digitChar_mem_table m)

theorem newline_not_mem_padStart2_numStr (m : Nat) :
    '\n' ∉ padStart2 (numStr m) := by
  intro h
  rcases List.mem_append.1 h with h | h
  · exact absurd (List.eq_of_mem_replicate h) (by decide)
  · exact not_mem_numStr (by decide) m h

theorem newline_not_mem_formatTimestamp (n : Nat) :
    '\n' ∉ formatTimestamp n := by
  simp only [formatTimestamp]
  split <;>
    simp [List.mem_append, not_mem_numStr (c := '\n') (by decide),
      newline_not_mem_padStart2_numStr]

/-- C3: a string of exactly 11 characters containing neither `/` nor `=`
is returned unchanged by the Identifier Normalizer, before any URL
pattern is consulted (the theorem holds for every such string, whatever
URL material it contains). -/
theorem C3_extractVideoId_length11 (l : List Char)
    (h11 : l.length = 11) (hs : '/' ∉ l) (he : '=' ∉ l) :
    extractVideoId l = l := by
  unfold extractVideoId
  rw [if_pos ⟨h11, hs, he⟩]

/-- Witness for C3 at the concrete identifier `dQw4w9WgXcQ`. -/
theorem C3_witness :
    ("dQw4w9WgXcQ".data.length = 11 ∧ '/' ∉ "dQw4w9WgXcQ".data ∧
      '=' ∉ "dQw4w9WgXcQ".data) ∧
    extractVideoId "dQw4w9WgXcQ".data = "dQw4w9WgXcQ".data :=
  ⟨by decide, C3_extractVideoId_length11 _ (by decide) (by decide) (by decide)⟩

/-- C5: the Timestamp Formatter truncates milliseconds to whole seconds,
agrees with the spec's `H:MM:SS` / `M:SS` rendering with zero-padded
trailing groups, and produces the five example values. -/
theorem C5_formatTimestamp_spec :
    (∀ s r : Nat, r < 1000 →
      formatTimestamp (1000 * s + r) = formatTimestamp (1000 * s)) ∧
    (∀ n, formatTimestamp n = specClockRender n) ∧
    formatTimestamp 0 = "0:00".data ∧
    formatTimestamp 59000 = "0:59".data ∧
    formatTimestamp 60000 = "1:00".data ∧
    formatTimestamp 3600000 = "1:00:00".data ∧
    formatTimestamp 3661000 = "1:01:01".data := by
  refine ⟨?_, ?_, by decide, by decide, by decide, by decide, by decide⟩
  · intro s r hr
    have hdiv : (1000 * s + r) / 1000 = 1000 * s / 1000 := by
      rw [Nat.mul_add_div (by norm_num), Nat.div_eq_of_lt hr,
        Nat.mul_div_cancel_left _ (by norm_num), Nat.add_zero]
    simp only [formatTimestamp, hdiv]
  · intro n
    have h : n / 1000 % 3600 / 60 = n / 1000 / 60 % 60 := by
      have h60 : (3600 : Nat) = 60 * 60 := by norm_num
      rw [h60, Nat.mod_mul_right_div_self]
    simp only [formatTimestamp, specClockRender, h]

/-- Witness for C5's truncation clause at `59s + 999ms`. -/
theorem C5_witness :
    999 < 1000 ∧ formatTimestamp (1000 * 59 + 999) = formatTimestamp (1000 * 59) :=
  ⟨by decide, C5_formatTimestamp_spec.1 59 999 (by decide)⟩

theorem isPrefixOf_true_iff (a b : List Char) : a.isPrefixOf b = true ↔ a <+: b :=
  List.isPrefixOf_iff_prefix

theorem isPrefixOf_append_self (a rest : List Char) :
    a.isPrefixOf (a ++ rest) = true :=
  (isPrefixOf_true_iff a (a ++ rest)).2 ⟨rest, rfl⟩

theorem not_isPrefixOf_append (a b rest : List Char)
    (hab : a.isPrefixOf b = false) (hba : b.isPrefixOf a = false) :
    a.isPrefixOf (b ++ rest) = false := by
  rw [Bool.eq_false_iff]
  intro htrue
  obtain ⟨t, ht⟩ := (isPrefixOf_true_iff _ _).1 htrue
  rcases List.append_eq_append_iff.1 ht with ⟨a', ha', -⟩ | ⟨c', hc', -⟩
  · exact absurd ((isPrefixOf_true_iff a b).2 ⟨a', ha'.symm⟩) (by simp [hab])
  · exact absurd ((isPrefixOf_true_iff b a).2 ⟨c', hc'.symm⟩) (by simp [hba])

theorem pattern1Search_drop (k : Nat) :
    ∀ l : List Char, (∀ i < k, pattern1At (l.drop i) = none) →
      pattern1Search l = pattern1Search (l.drop k) := by
  induction k with
  | zero => intro l _; rfl
  | succ k ih =>
    intro l h
    match l with
    | [] => simp
    | c :: rest =>
      have h0 : pattern1At (c :: rest) = none := by
        have := h 0 (Nat.succ_pos k)
        simpa using this
      have hrest : ∀ i < k, pattern1At (rest.drop i) = none := by
        intro i hi
        have := h (i + 1) (Nat.succ_lt_succ hi)
        simpa using this
      calc pattern1Search (c :: rest) = pattern1Search rest := by
            simp only [pattern1Search, h0]
        _ = pattern1Search (rest.drop k) := ih rest hrest
        _ = pattern1Search ((c :: rest).drop (k + 1)) := by
            rw [List.drop_succ_cons]

theorem takeWhile_append_all (p : Char → Bool) :
    ∀ (a s : List Char), (∀ c ∈ a, p c = true) →
      (s = [] ∨ ∃ c rest, s = c :: rest ∧ p c = false) →
      (a ++ s).takeWhile p = a := by
  intro a
  induction a with
  | nil =>
    intro s _ hs
    rcases hs with rfl | ⟨c, rest, rfl, hc⟩
    · rfl
    · simp [List.takeWhile_cons, hc]
  | cons x xs ih =>
    intro s hall hs
    have hx : p x = true := hall x (List.mem_cons_self x xs)
    simp only [List.cons_append, List.takeWhile_cons, hx, if_true]
    rw [ih s (fun c hc => hall c (List.mem_cons_of_mem x hc)) hs]

theorem captureAt_append (a s : List Char) (ha : a ≠ [])
    (hall : ∀ c ∈ a, c ∉ delims)
    (hs : s = [] ∨ ∃ c rest, s = c :: rest ∧ c ∈ delims) :
    captureAt (a ++ s) = some a := by
  have ht : (a ++ s).takeWhile (fun c => !(decide (c ∈ delims))) = a := by
    apply takeWhile_append_all
    · intro c hc
      simp [hall c hc]
    · rcases hs with rfl | ⟨c, rest, rfl, hc⟩
      · exact Or.inl rfl
      · exact Or.inr ⟨c, rest, rfl, by simp [hc]⟩
  simp only [captureAt, ht]
  rw [if_neg ha]

theorem pattern1Search_cons_some (c : Char) (rest x : List Char)
    (h : pattern1At (c :: rest) = some x) : pattern1Search (c :: rest) = some x := by
  simp only [pattern1Search, h]

theorem pattern1At_marker (m a s : List Char) (hm : m ∈ markers)
    (ha : a ≠ []) (hall : ∀ c ∈ a, c ∉ delims)
    (hs : s = [] ∨ ∃ c rest, s = c :: rest ∧ c ∈ delims) :
    pattern1At (m ++ (a ++ s)) = some a := by
  have hcap : captureAt (a ++ s) = some a := captureAt_append a s ha hall hs
  simp only [markers, List.mem_cons, List.not_mem_nil, or_false] at hm
  rcases hm with rfl | rfl | rfl | rfl
  · simp [pattern1At, markers, List.findSome?_cons, isPrefixOf_append_self,
      List.drop_left, hcap]
  · simp only [pattern1At, markers, List.findSome?_cons]
    rw [not_isPrefixOf_append "youtube.com/watch?v=".data "youtu.be/".data
      (a ++ s) (by decide) (by decide)]
    simp [isPrefixOf_append_self, List.drop_left, hcap]
  · simp only [pattern1At, markers, List.findSome?_cons]
    rw [not_isPrefixOf_append "youtube.com/watch?v=".data "youtube.com/embed/".data
        (a ++ s) (by decide) (by decide),
      not_isPrefixOf_append "youtu.be/".data "youtube.com/embed/".data
        (a ++ s) (by decide) (by decide)]
    simp [isPrefixOf_append_self, List.drop_left, hcap]
  · simp only [pattern1At, markers, List.findSome?_cons]
    rw [not_isPrefixOf_append "youtube.com/watch?v=".data "youtube.com/v/".data
        (a ++ s) (by decide) (by decide),
      not_isPrefixOf_append "youtu.be/".data "youtube.com/v/".data
        (a ++ s) (by decide) (by decide),
      not_isPrefixOf_append "youtube.com/embed/".data "youtube.com/v/".data
        (a ++ s) (by decide) (by decide)]
    simp [isPrefixOf_append_self, List.drop_left, hcap]

theorem extractVideoId_marker (p m a s : List Char) (hm : m ∈ markers)
    (ha : a ≠ []) (hall : ∀ c ∈ a, c ∉ delims)
    (hs : s = [] ∨ ∃ c rest, s = c :: rest ∧ c ∈ delims)
    (hleft : ∀ i < p.length, pattern1At ((p ++ (m ++ (a ++ s))).drop i) = none) :
    extractVideoId (p ++ (m ++ (a ++ s))) = a := by
  have hslash : '/' ∈ m := by fin_cases hm <;> decide
  have hmem : '/' ∈ p ++ (m ++ (a ++ s)) :=
    List.mem_append.2 (Or.inr (List.mem_append.2 (Or.inl hslash)))
  have hAt : pattern1At (m ++ (a ++ s)) = some a :=
    pattern1At_marker m a s hm ha hall hs
  have hmne : m ≠ [] := by fin_cases hm <;> decide
  have hp1 : pattern1Search (p ++ (m ++ (a ++ s))) = some a := by
    rw [pattern1Search_drop p.length _ hleft, List.drop_left]
    obtain ⟨c, m', rfl⟩ : ∃ c m', m = c :: m' := by
      cases m with
      | nil => exact absurd rfl hmne
      | cons c m' => exact ⟨c, m', rfl⟩
    rw [List.cons_append] at hAt ⊢
    exact pattern1Search_cons_some _ _ _ hAt
  unfold extractVideoId
  rw [if_neg (fun hcond => hcond.2.1 hmem), hp1]

/-- C4: for the four recognized URL marker shapes followed by a nonempty
delimiter-free identifier and then a delimiter (or end of string), and
with no earlier regex match in the leading prefix, the Identifier
Normalizer returns exactly the captured identifier; and whenever neither
URL regex matches and the 11-character rule does not apply, the input is
returned unchanged (the function is total and never fails). -/
theorem C4_extractVideoId_url_shapes :
    (∀ p m a s : List Char, m ∈ markers → a ≠ [] →
      (∀ c ∈ a, c ∉ delims) →
      (s = [] ∨ ∃ c rest, s = c :: rest ∧ c ∈ delims) →
      (∀ i < p.length, pattern1At ((p ++ (m ++ (a ++ s))).drop i) = none) →
      extractVideoId (p ++ (m ++ (a ++ s))) = a) ∧
    (∀ l : List Char, pattern1Search l = none → pattern2Search l = none →
      ¬(l.length = 11 ∧ '/' ∉ l ∧ '=' ∉ l) → extractVideoId l = l) := by
  refine ⟨extractVideoId_marker, ?_⟩
  intro l h1 h2 h11
  unfold extractVideoId
  rw [if_neg h11, h1, h2]

/-- Witness for C4 on `https://www.youtube.com/watch?v=dQw4w9WgXcQ&t=5`
and on a non-URL fallback input. -/
theorem C4_witness :
    extractVideoId ("https://www.".data ++ ("youtube.com/watch?v=".data
        ++ ("dQw4w9WgXcQ".data ++ "&t=5".data))) = "dQw4w9WgXcQ".data ∧
    extractVideoId "hello there world".data = "hello there world".data :=
  ⟨C4_extractVideoId_url_shapes.1 "https://www.".data "youtube.com/watch?v=".data
      "dQw4w9WgXcQ".data "&t=5".data (by decide) (by decide) (by decide)
      (Or.inr ⟨'&', "t=5".data, rfl, by decide⟩) (by decide),
    C4_extractVideoId_url_shapes.2 "hello there world".data
      (by decide) (by decide) (by decide)⟩

theorem newline_not_mem_formatEntry (e : TranscriptEntry)
    (h : '\n' ∉ e.text) : '\n' ∉ formatEntry e := by
  simp only [formatEntry, List.append_assoc]
  intro hmem
  rcases List.mem_append.1 hmem with h1 | h1
  · exact absurd h1 (by decide)
  rcases List.mem_append.1 h1 with h2 | h2
  · exact newline_not_mem_formatTimestamp e.offset h2
  rcases List.mem_append.1 h2 with h3 | h3
  · exact absurd h3 (by decide)
  · exact h h3

/-- C6: for a non-empty segment sequence with single-line texts, the
rendered transcript splits on newlines into exactly one line per segment,
in input order, the line count equals the segment count, and every line
starts with the bracketed formatted offset of its segment. -/
theorem C6_renderedText (ts : List TranscriptEntry) (hne : ts ≠ [])
    (htext : ∀ e ∈ ts, '\n' ∉ e.text) :
    (formattedTranscript ts).splitOn '\n' = ts.map formatEntry ∧
    ((formattedTranscript ts).splitOn '\n').length = ts.length ∧
    ∀ e ∈ ts, ("[".data ++ formatTimestamp e.offset ++ "] ".data) <+: formatEntry e := by
  have hsplit : (formattedTranscript ts).splitOn '\n' = ts.map formatEntry := by
    unfold formattedTranscript
    apply List.splitOn_intercalate
    · intro l hl
      obtain ⟨e, he, rfl⟩ := List.mem_map.1 hl
      exact newline_not_mem_formatEntry e (htext e he)
    · intro hmap
      exact hne (List.map_eq_nil_iff.1 hmap)
  refine ⟨hsplit, by rw [hsplit, List.length_map], ?_⟩
  intro e he
  exact ⟨e.text, by simp [formatEntry, List.append_assoc]⟩

/-- Witness for C6 on the spec's two-segment example. -/
theorem C6_witness :
    ([⟨"a".data, 0, 0⟩, ⟨"b".data, 7000, 0⟩] : List TranscriptEntry) ≠ [] ∧
    (∀ e ∈ ([⟨"a".data, 0, 0⟩, ⟨"b".data, 7000, 0⟩] : List TranscriptEntry),
      '\n' ∉ e.text) ∧
    ((formattedTranscript [⟨"a".data, 0, 0⟩, ⟨"b".data, 7000, 0⟩]).splitOn '\n'
        = ([⟨"a".data, 0, 0⟩, ⟨"b".data, 7000, 0⟩] : List TranscriptEntry).map formatEntry ∧
      ((formattedTranscript [⟨"a".data, 0, 0⟩, ⟨"b".data, 7000, 0⟩]).splitOn '\n').length
        = ([⟨"a".data, 0, 0⟩, ⟨"b".data, 7000, 0⟩] : List TranscriptEntry).length ∧
      ∀ e ∈ ([⟨"a".data, 0, 0⟩, ⟨"b".data, 7000, 0⟩] : List TranscriptEntry),
        ("[".data ++ formatTimestamp e.offset ++ "] ".data) <+: formatEntry e) :=
  ⟨by decide, by decide, C6_renderedText _ (by decide) (by decide)⟩

/-- C7: the formatted total duration is the Timestamp Formatter applied
to the last segment's offset (or to 0 for the empty sequence), and is in
general different from formatting the maximum of `offset + duration`. -/
theorem C7_duration_from_last_offset :
    (∀ (ts : List TranscriptEntry) (e : TranscriptEntry),
      ts.getLast? = some e → transcriptDuration ts = formatTimestamp e.offset) ∧
    transcriptDuration [] = formatTimestamp 0 ∧
    (∃ ts : List TranscriptEntry,
      transcriptDuration ts ≠ formatTimestamp (specMaxEndOffset ts)) := by
  refine ⟨?_, rfl, ⟨[⟨"a".data, 0, 5000⟩], by decide⟩⟩
  intro ts e he
  unfold transcriptDuration lastOffset
  rw [he]

/-- Witness for C7's last-offset clause on a one-segment transcript. -/
theorem C7_witness :
    ([⟨"b".data, 7000, 0⟩] : List TranscriptEntry).getLast?
        = some (⟨"b".data, 7000, 0⟩ : TranscriptEntry) ∧
    transcriptDuration [⟨"b".data, 7000, 0⟩] = formatTimestamp 7000 :=
  ⟨by decide, C7_duration_from_last_offset.1 [⟨"b".data, 7000, 0⟩]
    (⟨"b".data, 7000, 0⟩ : TranscriptEntry) (by decide)⟩

/-- C8: with a present videoId and API key, an empty or absent caption
sequence yields the distinct no-transcript payload as a successful
(`Except.ok`) outcome, never an error; the empty mapped sequence has zero
segments and duration `0:00`. -/
theorem C8_empty_transcript_is_success :
    ∀ (raw key : Option (List Char)) (content : Option (List TranscriptEntry)),
      falsyStr raw = false → falsyStr key = false →
      (content = none ∨ content = some []) →
      getYouTubeTranscript raw key content
          = .ok (.noTranscript (extractVideoId (raw.getD []))) ∧
      (∀ v n d r, TranscriptResult.noTranscript (extractVideoId (raw.getD []))
          ≠ TranscriptResult.transcript v n d r) ∧
      ([] : List TranscriptEntry).length = 0 ∧
      transcriptDuration [] = "0:00".data := by
  intro raw key content hraw hkey hc
  refine ⟨?_, ?_, rfl, by decide⟩
  · rcases hc with rfl | rfl <;> simp [getYouTubeTranscript, hraw, hkey]
  · intro v n d r h
    cases h

/-- Witness for C8 with a bare id, a configured key and an absent
`content` field. -/
theorem C8_witness :
    falsyStr (some "dQw4w9WgXcQ".data) = false ∧
    falsyStr (some "k".data) = false ∧
    (getYouTubeTranscript (some "dQw4w9WgXcQ".data) (some "k".data) none
        = .ok (.noTranscript (extractVideoId ((some "dQw4w9WgXcQ".data).getD []))) ∧
      (∀ v n d r, TranscriptResult.noTranscript
            (extractVideoId ((some "dQw4w9WgXcQ".data).getD []))
          ≠ TranscriptResult.transcript v n d r) ∧
      ([] : List TranscriptEntry).length = 0 ∧
      transcriptDuration [] = "0:00".data) :=
  ⟨by decide, by decide,
    C8_empty_transcript_is_success _ _ none (by decide) (by decide) (Or.inl rfl)⟩

/-- C9: the store-upsert handler rejects an absent/empty videoId or
summary with `InvalidParams` and leaves the database state unchanged. -/
theorem C9_store_rejects_empty :
    ∀ (st : List SummaryRow) (now : Nat) (videoId summary : Option (List Char)),
      falsyStr videoId = true ∨ falsyStr summary = true →
      mcpStoreVideoSummary st now videoId summary = (st, .error .invalidParams) := by
  intro st now v s h
  by_cases hv : falsyStr v = true
  · simp [mcpStoreVideoSummary, hv]
  · rcases h with h | h
    · exact absurd h hv
    · simp [mcpStoreVideoSummary, hv, h]

/-- Witness for C9: an empty summary string is rejected without touching
the store. -/
theorem C9_witness :
    (falsyStr (some "dQw4w9WgXcQ".data) = true ∨ falsyStr (some []) = true) ∧
    mcpStoreVideoSummary [] 0 (some "dQw4w9WgXcQ".data) (some [])
      = ([], .error .invalidParams) :=
  ⟨Or.inr (by decide), C9_store_rejects_empty [] 0 _ _ (Or.inr (by decide))⟩

theorem find?_filter_ne (st : List SummaryRow) (v : List Char) :
    (st.filter (fun r => !(r.video_id == v))).find? (fun r => r.video_id == v)
      = none := by
  rw [List.find?_eq_none]
  intro x hx
  have hkeep := (List.mem_filter.1 hx).2
  simp only [Bool.not_eq_true'] at hkeep
  simp [hkeep]

/-- C10: storing a summary and then looking the same raw videoId up, with
no intervening write, returns exactly the stored text. -/
theorem C10_store_then_fetch_roundtrip :
    ∀ (st st' : List SummaryRow) (now : Nat) (v s : List Char),
      v ≠ [] → s ≠ [] →
      dbStoreVideoSummary st now v s = .ok st' →
      dbFetchExistingVideoSummary st' v = .ok (some s) := by
  intro st st' now v s hv hs hst
  have hvE : v.isEmpty = false := by
    cases v with
    | nil => exact absurd rfl hv
    | cons c l => rfl
  have hsE : s.isEmpty = false := by
    cases s with
    | nil => exact absurd rfl hs
    | cons c l => rfl
  unfold dbStoreVideoSummary at hst
  rw [if_neg (by simp [hvE, hsE])] at hst
  injection hst with hst
  subst hst
  unfold dbFetchExistingVideoSummary insertOrReplace
  rw [if_neg (by simp [hvE])]
  rw [List.find?_append, find?_filter_ne, Option.none_or]
  have hfind : List.find? (fun (r : SummaryRow) => r.video_id == v)
      [⟨v, s, now, now⟩] = some (⟨v, s, now, now⟩ : SummaryRow) :=
    List.find?_cons_of_pos _ (by simp)
  rw [hfind]
  rfl

/-- Witness for C10 on a concrete store followed by a fetch. -/
theorem C10_witness :
    "dQw4w9WgXcQ".data ≠ [] ∧ "hello".data ≠ [] ∧
    dbStoreVideoSummary [] 7 "dQw4w9WgXcQ".data "hello".data
      = .ok [⟨"dQw4w9WgXcQ".data, "hello".data, 7, 7⟩] ∧
    dbFetchExistingVideoSummary [⟨"dQw4w9WgXcQ".data, "hello".data, 7, 7⟩]
        "dQw4w9WgXcQ".data
      = .ok (some "hello".data) :=
  ⟨by decide, by decide, rfl,
    C10_store_then_fetch_roundtrip [] _ 7 _ _ (by decide) (by decide) rfl⟩

/-- C1 (code behaviour at the failing input): `INSERT OR REPLACE` deletes
the conflicting row and re-inserts it, so the second upsert leaves
exactly one record with the new summary and an advanced `updated_at`, but
its `created_at` is reset to the second call's time (2), no longer the
first insert's time (1). -/
theorem C1_upsert_resets_created_at :
    dbStoreVideoSummary [] 1 "dQw4w9WgXcQ".data "a".data
      = .ok [⟨"dQw4w9WgXcQ".data, "a".data, 1, 1⟩] ∧
    dbStoreVideoSummary [⟨"dQw4w9WgXcQ".data, "a".data, 1, 1⟩] 2
        "dQw4w9WgXcQ".data "b".data
      = .ok [⟨"dQw4w9WgXcQ".data, "b".data, 2, 2⟩] ∧
    (2 : Nat) ≠ 1 :=
  ⟨rfl, rfl, by decide⟩

/-- C2 counterexample: the store and lookup handlers do not normalize
their `videoId` argument. Storing under a short-link URL persists the raw
URL as the key — not `extractVideoId` of it — and a lookup with the
canonical identifier misses the record. -/
theorem C2_counterexample :
    extractVideoId "https://youtu.be/dQw4w9WgXcQ".data = "dQw4w9WgXcQ".data ∧
    (mcpStoreVideoSummary [] 0 (some "https://youtu.be/dQw4w9WgXcQ".data)
        (some "hello".data)).1
      = [⟨"https://youtu.be/dQw4w9WgXcQ".data, "hello".data, 0, 0⟩] ∧
    mcpFetchExistingVideoSummary
        (mcpStoreVideoSummary [] 0 (some "https://youtu.be/dQw4w9WgXcQ".data)
          (some "hello".data)).1
        (some "dQw4w9WgXcQ".data)
      = .ok ("No summary found for video ID: ".data ++ "dQw4w9WgXcQ".data) :=
  ⟨rfl, rfl, rfl⟩

/-- C2 amended: the summary-store operations key records by the raw
videoId string itself; after storing under `v`, a lookup with `q` finds
the record exactly when `q` equals `v` verbatim. -/
theorem C2_amended_raw_key (now : Nat) (v s q : List Char)
    (hv : v ≠ []) (hs : s ≠ []) (hq : q ≠ []) :
    mcpFetchExistingVideoSummary
        (mcpStoreVideoSummary [] now (some v) (some s)).1 (some q)
      = .ok (if q = v
          then "Summary for video ID: ".data ++ q ++ "\n\n".data ++ s
          else "No summary found for video ID: ".data ++ q) := by
  have hvE : v.isEmpty = false := by
    cases v with
    | nil => exact absurd rfl hv
    | cons c l => rfl
  have hsE : s.isEmpty = false := by
    cases s with
    | nil => exact absurd rfl hs
    | cons c l => rfl
  have hqE : q.isEmpty = false := by
    cases q with
    | nil => exact absurd rfl hq
    | cons c l => rfl
  have hstore : (mcpStoreVideoSummary [] now (some v) (some s)).1
      = [⟨v, s, now, now⟩] := by
    simp [mcpStoreVideoSummary, falsyStr, hvE, hsE, dbStoreVideoSummary,
      insertOrReplace]
  rw [hstore]
  by_cases hqv : q = v
  · subst hqv
    simp [mcpFetchExistingVideoSummary, falsyStr, hqE,
      dbFetchExistingVideoSummary, List.find?]
  · have hne : (v == q) = false := by
      simp [Ne.symm hqv]
    simp [mcpFetchExistingVideoSummary, falsyStr, hqE,
      dbFetchExistingVideoSummary, List.find?, hne, hqv]

/-- Witness for C2's amended claim at a concrete raw key. -/
theorem C2_amended_witness :
    "dQw4w9WgXcQ".data ≠ ([] : List Char) ∧ "hello".data ≠ ([] : List Char) ∧
    mcpFetchExistingVideoSummary
        (mcpStoreVideoSummary [] 5 (some "dQw4w9WgXcQ".data)
          (some "hello".data)).1 (some "dQw4w9WgXcQ".data)
      = .ok (if "dQw4w9WgXcQ".data = "dQw4w9WgXcQ".data
          then "Summary for video ID: ".data ++ "dQw4w9WgXcQ".data
            ++ "\n\n".data ++ "hello".data
          else "No summary found for video ID: ".data ++ "dQw4w9WgXcQ".data) :=
  ⟨by decide, by decide,
    C2_amended_raw_key 5 _ _ _ (by decide) (by decide) (by decide)⟩

end YoutubeMcp
